import Mathlib

/-
Verification of the s-sh-recognition-app repository (a browser pronunciation
coach plus a serverless transcription handler) against its natural-language
specification.

Shallow embedding conventions:
- JavaScript strings are embedded as `List Char` (abbreviated `Str`).
- Asynchronous calls into external capabilities (browser speech recognition,
  the generative-language endpoint, the cloud speech-to-text service) are
  embedded by passing the outcome of each call as an explicit input; the
  list of external calls an operation performs is returned alongside the
  new state so that claims about which services were contacted are statable.
- React `useState` state is embedded as an explicit `AppState` record; each
  event handler becomes a function from the old state (and the environment
  outcomes) to the new state.
-/

namespace SSH

/-- JavaScript strings are embedded as lists of characters. -/
abbrev Str := List Char

/-- The whitespace characters recognised by `String.prototype.trim` that
matter here (the app compares `transcript.trim()` against the empty string;
JSON also uses exactly these four whitespace characters), by code point:
space, horizontal tab, line feed, carriage return. -/
def wsChar (c : Char) : Bool :=
  c.toNat == 32 || c.toNat == 9 || c.toNat == 10 || c.toNat == 13

/-- `s.trim()`: drop whitespace from both ends. -/
def jsTrim (s : Str) : Str :=
  ((s.dropWhile wsChar).reverse.dropWhile wsChar).reverse

/-- `s.toLowerCase()` restricted to ASCII case mapping (the only use site
compares against the ASCII literal "api key"). -/
def jsToLowerCase (s : Str) : Str := s.map Char.toLower

/-- `s.includes(sub)`: some suffix of `s` starts with `sub`. -/
def jsIncludes (sub : Str) : Str → Bool
  | [] => sub.isPrefixOf []
  | c :: rest => sub.isPrefixOf (c :: rest) || jsIncludes sub rest

/-! ### JSON values and `JSON.parse`

The app stores `JSON.parse(jsonStr)` into React state with only a
compile-time type ascription (`const feedbackResult: Feedback = ...`), so
the runtime value is an arbitrary JSON value; we embed the full value
space. Numbers keep their source lexeme (the app never computes with
them, so the numeric interpretation is irrelevant). -/

/-- A runtime JSON value, as produced by `JSON.parse`. -/
inductive Json where
  | null
  | bool (b : Bool)
  | num (lexeme : Str)
  | str (s : Str)
  | arr (elems : List Json)
  | obj (members : List (Str × Json))

/-- Opening brace character (written via its code point). -/
def lbrace : Char := Char.ofNat 123

/-- Closing brace character (written via its code point). -/
def rbrace : Char := Char.ofNat 125

/-- Skip JSON insignificant whitespace. -/
def skipWs (s : Str) : Str := s.dropWhile wsChar

/-- Value of one hexadecimal digit, by code point: decimal digits sit at
48-57, lowercase a-f at 97-102, uppercase A-F at 65-70. -/
def hexDigit (c : Char) : Option Nat :=
  let n := c.toNat
  if 48 ≤ n ∧ n ≤ 57 then some (n - 48)
  else if 97 ≤ n ∧ n ≤ 102 then some (n - 87)
  else if 65 ≤ n ∧ n ≤ 70 then some (n - 55)
  else none

/-- The character denoted by a single-character JSON string escape. -/
def escapeChar (e : Char) : Option Char :=
  if e == '"' || e == '\\' || e == '/' then some e
  else if e == 'n' then some '\n'
  else if e == 't' then some '\t'
  else if e == 'r' then some '\r'
  else if e == 'b' then some (Char.ofNat 8)
  else if e == 'f' then some (Char.ofNat 12)
  else none

/-- Decode what follows a backslash in a JSON string: a `u` escape with
four hexadecimal digits (mapped through `Char.ofNat`; the app never
exercises surrogate pairs) or a single-character escape.  Returns the
decoded character and the remaining input. -/
def decodeEscape : Str → Option (Char × Str)
  | 'u' :: h1 :: h2 :: h3 :: h4 :: r =>
    match hexDigit h1, hexDigit h2, hexDigit h3, hexDigit h4 with
    | some v1, some v2, some v3, some v4 =>
      some (Char.ofNat (v1 * 4096 + v2 * 256 + v3 * 16 + v4), r)
    | _, _, _, _ => none
  | e :: r => (escapeChar e).map (fun ch => (ch, r))
  | [] => none

/-- Parse the body of a JSON string after the opening quote; returns the
decoded content and the input remaining after the closing quote.  Fuel
above the input length suffices, since every step consumes input. -/
def strBody (fuel : Nat) (acc : Str) (s : Str) : Option (Str × Str) :=
  match fuel, s with
  | 0, _ => none
  | _, [] => none
  | fuel + 1, c :: rest =>
    if c == '"' then some (acc.reverse, rest)
    else if c == '\\' then
      match decodeEscape rest with
      | some (ch, r2) => strBody fuel (ch :: acc) r2
      | none => none
    else if c.toNat < 32 then none
    else strBody fuel (c :: acc) rest

/-- Longest digit run at the front of the input. -/
def digitSpan (s : Str) : Str × Str :=
  (s.takeWhile Char.isDigit, s.dropWhile Char.isDigit)

/-- Parse a JSON number per the RFC 8259 grammar, returning its lexeme and
the remaining input. -/
def parseNumberLex (s : Str) : Option (Str × Str) :=
  let (negPart, s1) : Str × Str :=
    match s with
    | '-' :: r => (['-'], r)
    | _ => ([], s)
  let intRes : Option (Str × Str) :=
    match s1 with
    | '0' :: r => some (['0'], r)
    | c :: r => if c.isDigit then let (ds, r2) := digitSpan r; some (c :: ds, r2) else none
    | [] => none
  match intRes with
  | none => none
  | some (intDs, s2) =>
    let fracRes : Option (Str × Str) :=
      match s2 with
      | '.' :: r =>
        let (ds, r2) := digitSpan r
        if ds.isEmpty then none else some ('.' :: ds, r2)
      | _ => some ([], s2)
    match fracRes with
    | none => none
    | some (fracDs, s3) =>
      let expRes : Option (Str × Str) :=
        match s3 with
        | e :: r =>
          if e == 'e' || e == 'E' then
            let (signPart, r1) : Str × Str :=
              match r with
              | c :: r2 => if c == '+' || c == '-' then ([c], r2) else ([], c :: r2)
              | [] => ([], [])
            let (ds, r2) := digitSpan r1
            if ds.isEmpty then none else some (e :: (signPart ++ ds), r2)
          else some ([], s3)
        | [] => some ([], s3)
      match expRes with
      | none => none
      | some (expDs, s4) => some (negPart ++ intDs ++ fracDs ++ expDs, s4)

mutual

/-- Parse one JSON value at the front of the input (whitespace already
skipped); fuel makes the recursion total and any fuel above the input
length suffices. -/
def parseValue : Nat → Str → Option (Json × Str)
  | 0, _ => none
  | fuel + 1, s =>
    match s with
    | [] => none
    | c :: rest =>
      if c == '"' then
        match strBody (rest.length + 1) [] rest with
        | some (content, r) => some (.str content, r)
        | none => none
      else if c == '[' then
        match skipWs rest with
        | ']' :: r2 => some (.arr [], r2)
        | r1 =>
          match parseElems fuel r1 with
          | some (es, r2) => some (.arr es, r2)
          | none => none
      else if c == lbrace then
        match skipWs rest with
        | c2 :: r2 =>
          if c2 == rbrace then some (.obj [], r2)
          else
            match parseMembers fuel (c2 :: r2) with
            | some (ms, r3) => some (.obj ms, r3)
            | none => none
        | [] => none
      else if c == 'n' then
        match rest with
        | 'u' :: 'l' :: 'l' :: r => some (.null, r)
        | _ => none
      else if c == 't' then
        match rest with
        | 'r' :: 'u' :: 'e' :: r => some (.bool true, r)
        | _ => none
      else if c == 'f' then
        match rest with
        | 'a' :: 'l' :: 's' :: 'e' :: r => some (.bool false, r)
        | _ => none
      else
        match parseNumberLex (c :: rest) with
        | some (lex, r) => some (.num lex, r)
        | none => none

/-- Parse a nonempty comma-separated list of array elements up to and
including the closing bracket. -/
def parseElems : Nat → Str → Option (List Json × Str)
  | 0, _ => none
  | fuel + 1, s =>
    match parseValue fuel (skipWs s) with
    | some (v, r1) =>
      match skipWs r1 with
      | ',' :: r2 =>
        match parseElems fuel r2 with
        | some (es, r3) => some (v :: es, r3)
        | none => none
      | ']' :: r2 => some ([v], r2)
      | _ => none
    | none => none

/-- Parse a nonempty comma-separated list of object members up to and
including the closing brace. -/
def parseMembers : Nat → Str → Option (List (Str × Json) × Str)
  | 0, _ => none
  | fuel + 1, s =>
    match skipWs s with
    | c :: rest =>
      if c == '"' then
        match strBody (rest.length + 1) [] rest with
        | some (key, r1) =>
          match skipWs r1 with
          | ':' :: r2 =>
            match parseValue fuel (skipWs r2) with
            | some (v, r3) =>
              match skipWs r3 with
              | ',' :: r4 =>
                match parseMembers fuel r4 with
                | some (ms, r5) => some ((key, v) :: ms, r5)
                | none => none
              | c2 :: r4 => if c2 == rbrace then some ([(key, v)], r4) else none
              | [] => none
            | none => none
          | _ => none
        | none => none
      else none
    | [] => none

end

/-- `JSON.parse(s)`: parse one value and require only whitespace after it;
`none` embeds a thrown `SyntaxError`. -/
def jsonParse (s : Str) : Option Json :=
  match parseValue (s.length + 1) (skipWs s) with
  | some (v, rest) => if (skipWs rest).isEmpty then some v else none
  | none => none

/-! ### Markdown code-fence stripping

The app post-processes the model response with

  const fenceRegex = /^```(?:json)?\s*\n?(.*?)\n?\s*```$/s;
  const match = jsonStr.match(fenceRegex);
  if (match && match[1]) { jsonStr = match[1].trim(); }

With the `s` flag `.` matches newlines and, absent the `m` flag, `^`/`$`
anchor to the whole string, so the regex matches exactly when the string
starts with ``` (optionally followed by `json`, consumed greedily, which
never forecloses a match because the lazy dotall group can absorb
anything) and the remainder after that opening tag ends with ``` that
does not overlap the opening.  The greedy leading `\s*\n?` strips all
leading whitespace of the enclosed text; the lazy group hands the longest
whitespace-only suffix to the trailing `\n?\s*`; so `match[1].trim()` is
exactly the enclosed text (remainder minus its final three backticks)
trimmed.  `match[1]` is empty — and, being falsy, leaves `jsonStr`
unchanged — exactly when that trimmed text is empty. -/

/-- The three-backtick fence token. -/
def fence : Str := [Char.ofNat 96, Char.ofNat 96, Char.ofNat 96]

/-- The optional `json` language tag after the opening fence. -/
def jsonTag : Str := ['j', 's', 'o', 'n']

/-- The fence-stripping step of `analyzePronunciation` (see the derivation
above): returns the trimmed fenced content when the whole string is
fence-wrapped with nonblank content, and the input unchanged otherwise. -/
def stripFence (s : Str) : Str :=
  if fence.isPrefixOf s then
    let t1 := s.drop 3
    let t2 := if jsonTag.isPrefixOf t1 then t1.drop 4 else t1
    if fence.isSuffixOf t2 then
      let c := jsTrim (t2.take (t2.length - 3))
      if c = [] then s else c
    else s
  else s

/-! ### Practice items -/

/-- A practice item: a minimal pair of words or a whole sentence, with
IPA transcriptions and a Japanese translation. -/
inductive PracticeItem where
  | pair (wordS ipaS wordSh ipaSh translation : Str)
  | sentence (text ipa translation : Str)

/-- The hard-coded practice list `PRACTICE_ITEMS` (identical in
`src/src/App.tsx` and `src/index.tsx`). -/
def PRACTICE_ITEMS : List PracticeItem :=
  [ .pair "sea".data "/siː/".data "she".data "/ʃiː/".data "海 / 彼女".data,
    .pair "seat".data "/siːt/".data "sheet".data "/ʃiːt/".data "席 / シーツ".data,
    .pair "sell".data "/sel/".data "shell".data "/ʃel/".data "売る / 貝殻".data,
    .pair "self".data "/self/".data "shelf".data "/ʃelf/".data "自己 / 棚".data,
    .sentence "She sells seashells by the seashore.".data
      "/ʃiː selz ˈsiːʃelz baɪ ðə ˈsiːʃɔːr/".data "彼女は海岸で貝殻を売る".data ]

/-! ### Session view-state -/

/-- The four view states of the session
(`useState<'idle' | 'recording' | 'analyzing' | 'result'>`). -/
inductive Status where
  | idle
  | recording
  | analyzing
  | result
deriving DecidableEq

/-- The React component state: one field per `useState` hook.  The
`feedback` field holds the raw value produced by `JSON.parse` (the
`Feedback` ascription in the source is compile-time only). -/
structure AppState where
  currentItemIndex : Nat
  status : Status
  activeWord : Option Str
  feedback : Option Json
  error : Str

/-- The initial state of the component (`useState` initial values). -/
def initialState : AppState :=
  { currentItemIndex := 0, status := .idle, activeWord := none,
    feedback := none, error := [] }

/-! ### User-facing message constants (verbatim from the source) -/

def apiKeyNotConfiguredMsg : Str := "API key is not configured.".data

def feedbackFailedMsg : Str :=
  "Couldn\x27t get feedback from AI. Please try again.".data

def noMicSupportMsg : Str :=
  "Your browser does not support microphone access. Please try on a modern browser like Chrome or Firefox.".data

def noSpeechRecInBrowserMsg : Str :=
  "Speech recognition is not supported in this browser. Please try on a modern browser like Chrome or Firefox.".data

def couldntHearMsg : Str :=
  "Couldn\x27t hear any speech. Please try speaking a bit louder or closer to the mic.".data

def unknownErrorMsg : Str := "An unknown error occurred during recording.".data

def micDeniedMsg : Str :=
  "Microphone permission denied. Please allow access in your browser settings and try again.".data

def noMicFoundMsg : Str :=
  "No microphone found. Please connect a microphone and try again.".data

def micInUseMsg : Str :=
  "Microphone is already in use by another app. Please close it and try again.".data

def apiKeyFailedMsg : Str :=
  "AI analysis failed. Please check API key configuration and permissions.".data

def recNotSupportedMsg : Str :=
  "Speech recognition not supported in this browser.".data

def recErrorHead : Str := "Speech recognition error: ".data

/-! ### The feedback requester (`analyzePronunciation`) -/

/-- The generation configuration passed to `getGenerativeModel`. -/
structure GenerationConfig where
  responseMimeType : Str

/-- The model request issued by `analyzePronunciation`. -/
structure ModelRequest where
  model : Str
  generationConfig : GenerationConfig

/-- The concrete request configuration in the source:
`{ model: "gemini-pro", generationConfig: { responseMimeType: "application/json" } }`. -/
def analyzeModelRequest : ModelRequest :=
  { model := "gemini-pro".data,
    generationConfig := { responseMimeType := "application/json".data } }

def promptPartA : Str :=
  "You are an expert English pronunciation coach for native Japanese speakers.\nA user was asked to say: \"".data

def promptPartB : Str := "\" (IPA: ".data

def promptPartC : Str :=
  ").\nSpeech recognition transcribed their attempt as: \"".data

def promptPartD : Str :=
  "\".\n\nAnalyze this. Respond ONLY with a JSON object in this format:\n\x7b\n  \"isCorrect\": boolean,\n  \"feedback\": \"A short, encouraging message about the pronunciation. Example: \x27Good try! It sounded like \x27ship\x27 instead of \x27sip\x27.\"\",\n  \"tip\": \"A concrete tip focusing on tongue/lip placement for /s/ vs /ʃ/. Contrast with Japanese sounds if helpful. If correct, give a general encouragement tip.\"\n\x7d".data

/-- The prompt template literal of `analyzePronunciation`, split at its
three `${...}` interpolations. -/
def buildPrompt (targetWord targetIpa transcript : Str) : Str :=
  promptPartA ++ targetWord ++ promptPartB ++ targetIpa ++ promptPartC ++
    transcript ++ promptPartD

/-- An external call performed by an event handler. -/
inductive ExtCall where
  | getUserMedia
  | startRecognition
  | generateContent (prompt : Str)

/-- `analyzePronunciation(targetWord, targetIpa, transcript)`.
`hasAi` is whether the `ai` client exists (an API key was configured);
`genResult` is the outcome of `model.generateContent(prompt)` followed by
`response.text()` — `some text` on success, `none` when the awaited call
throws.  Returns the new state and the external calls made. -/
def analyzePronunciation (hasAi : Bool) (targetWord targetIpa transcript : Str)
    (genResult : Option Str) (s : AppState) : AppState × List ExtCall :=
  if !hasAi then
    ({ s with error := apiKeyNotConfiguredMsg, status := .idle }, [])
  else
    let s1 := { s with status := .analyzing, error := [], feedback := none }
    let prompt := buildPrompt targetWord targetIpa transcript
    match genResult with
    | none =>
      ({ s1 with error := feedbackFailedMsg, status := .idle },
        [.generateContent prompt])
    | some text =>
      let jsonStr := stripFence text
      match jsonParse jsonStr with
      | some v =>
        ({ s1 with feedback := some v, status := .result },
          [.generateContent prompt])
      | none =>
        ({ s1 with error := feedbackFailedMsg, status := .idle },
          [.generateContent prompt])

/-! ### The recording handler (`handleRecord`, `src/src/App.tsx`) -/

/-- A JavaScript value as scrutinised by the catch block of
`handleRecord`: an `Error` instance (with `name` and `message`), a plain
string, or anything else. -/
inductive JsValue where
  | error (name message : Str)
  | str (s : Str)
  | other

/-- The catch block of `handleRecord`: maps a caught value to the
user-facing error message. -/
def errorMessageFor (err : JsValue) : Str :=
  match err with
  | .error name message =>
    if name == "NotAllowedError".data || name == "PermissionDeniedError".data then
      micDeniedMsg
    else if name == "NotFoundError".data then noMicFoundMsg
    else if name == "NotReadableError".data then micInUseMsg
    else if jsIncludes "api key".data (jsToLowerCase message) then apiKeyFailedMsg
    else "An error occurred: ".data ++ message
  | .str s => s
  | .other => unknownErrorMsg

/-- The browser-environment outcomes a single `handleRecord` run can
observe: feature support, the settlement of `getUserMedia`, the
settlement of the `recognizeSpeech` promise, and the feedback-requester
inputs threaded through to `analyzePronunciation`. -/
structure RecordEnv where
  mediaDevicesSupported : Bool
  speechRecognitionSupported : Bool
  getUserMediaResult : Except JsValue Unit
  recognitionResult : Except Str Str
  hasAi : Bool
  genResult : Option Str

/-- `handleRecord(word, ipa)` from `src/src/App.tsx`: feature checks,
explicit microphone-permission request, speech recognition, the
empty-transcript guard, then `analyzePronunciation`; the catch block maps
thrown values through `errorMessageFor`.  (`getUserMedia` rejects with an
`Error`; `recognizeSpeech` rejects with a string, which the catch block
shows verbatim.) -/
def handleRecord (env : RecordEnv) (word ipa : Str) (s : AppState) :
    AppState × List ExtCall :=
  if !env.mediaDevicesSupported then
    ({ s with error := noMicSupportMsg, status := .idle }, [])
  else if !env.speechRecognitionSupported then
    ({ s with error := noSpeechRecInBrowserMsg, status := .idle }, [])
  else
    let s1 := { s with
      activeWord := some word, status := .recording,
      error := [], feedback := none }
    match env.getUserMediaResult with
    | .error e =>
      ({ s1 with error := errorMessageFor e, status := .idle }, [.getUserMedia])
    | .ok _ =>
      match env.recognitionResult with
      | .error r =>
        ({ s1 with error := errorMessageFor (.str r), status := .idle },
          [.getUserMedia, .startRecognition])
      | .ok transcript =>
        if jsTrim transcript = [] then
          ({ s1 with error := couldntHearMsg, status := .idle },
            [.getUserMedia, .startRecognition])
        else
          let (s2, calls) :=
            analyzePronunciation env.hasAi word ipa transcript env.genResult s1
          (s2, .getUserMedia :: .startRecognition :: calls)

/-- `handleNextItem`: advance the index cyclically and reset the
per-attempt state. -/
def handleNextItem (s : AppState) : AppState :=
  { currentItemIndex := (s.currentItemIndex + 1) % PRACTICE_ITEMS.length,
    status := .idle, activeWord := none, feedback := none, error := [] }

/-! ### The recognition adapter (`recognizeSpeech`) -/

/-- An event delivered by the platform recognition session: a result
event carrying `results` (a list of results, each a list of alternative
transcripts), an error event carrying `event.error`, or the end event. -/
inductive RecEvent where
  | result (results : List (List Str))
  | error (code : Str)
  | ended

/-- `event.results[0][0].transcript`; `none` when the nested indexing
would fail (never the case for real result events). -/
def firstTranscript (results : List (List Str)) : Option Str :=
  match results with
  | (t :: _) :: _ => some t
  | _ => none

/-- How the single-shot promise settles over a stream of recognition
events: `onresult` resolves with `results[0][0].transcript`, `onerror`
rejects with the interpolated reason string, `onend` does nothing; `none`
means the promise never settles. -/
def settleEvents : List RecEvent → Option (Except Str Str)
  | [] => none
  | .result rs :: rest =>
    match firstTranscript rs with
    | some t => some (.ok t)
    | none => settleEvents rest
  | .error code :: _ => some (.error (recErrorHead ++ code))
  | .ended :: rest => settleEvents rest

/-- `recognizeSpeech()`: rejects immediately when the platform capability
is missing, otherwise settles according to the recognition events.
`some (.ok t)` is resolution, `some (.error m)` rejection, `none` a
never-settling promise. -/
def recognizeSpeech (supported : Bool) (events : List RecEvent) :
    Option (Except Str Str) :=
  if !supported then some (.error recNotSupportedMsg)
  else settleEvents events

/-! ### The backend transcription handler (`src/unnamed/part_000`) -/

/-- An HTTP request as the handler reads it: the method and the `audio`
field of the body (`none` when absent). -/
structure BackendReq where
  method : Str
  audio : Option Str

/-- The handler response: `send status body` or `status(200).json({transcription})`. -/
inductive BackendResp where
  | send (status : Nat) (body : Str)
  | json (status : Nat) (transcription : Str)
deriving DecidableEq

def methodNotAllowedMsg : Str := "Method Not Allowed".data

def badRequestMsg : Str := "Bad Request: Missing audio data.".data

def internalServerErrorMsg : Str := "Internal Server Error".data

/-- `response.results.map(result => result.alternatives[0].transcript)`:
`none` embeds the `TypeError` thrown when some result has no
alternatives.  Each inner list holds the transcripts of one result's
alternatives. -/
def firstAlternativeTranscripts : List (List Str) → Option (List Str)
  | [] => some []
  | alts :: rest =>
    match alts with
    | [] => none
    | t :: _ => (firstAlternativeTranscripts rest).map (t :: ·)

/-- `Array.prototype.join('\n')`. -/
def joinNl : List Str → Str
  | [] => []
  | [x] => x
  | x :: y :: rest => x ++ '\n' :: joinNl (y :: rest)

/-- The serverless handler `module.exports`: method check, audio-presence
check (JavaScript truthiness, so an empty string is also rejected), one
`speechClient.recognize` call, transcript join, response.  `recognizeResult`
is `some results` when the awaited call returns and `none` when it throws;
the returned `Nat` counts the `recognize` calls made. -/
def transcribeHandler (req : BackendReq) (recognizeResult : Option (List (List Str))) :
    BackendResp × Nat :=
  if req.method ≠ "POST".data then (.send 405 methodNotAllowedMsg, 0)
  else
    match req.audio with
    | none => (.send 400 badRequestMsg, 0)
    | some audioBytes =>
      if audioBytes = [] then (.send 400 badRequestMsg, 0)
      else
        match recognizeResult with
        | none => (.send 500 internalServerErrorMsg, 1)
        | some results =>
          match firstAlternativeTranscripts results with
          | none => (.send 500 internalServerErrorMsg, 1)
          | some ts => (.json 200 (joinNl ts), 1)

/-! ### Spec-side definitions for refinement checks -/

/-- Look up an object member by key. -/
def lookupMember (members : List (Str × Json)) (key : Str) : Option Json :=
  (members.find? (fun kv => kv.1 == key)).map (fun kv => kv.2)

/-- Validity of a feedback value, following the spec words: the parsed
result has exactly the three fields
`{isCorrect: boolean, feedback: text, tip: text}`.  This is the
spec-side predicate C1 claims the code checks before storing feedback;
the code performs no such runtime check. -/
def isValidFeedback (j : Json) : Bool :=
  match j with
  | .obj members =>
    members.length == 3 &&
    (match lookupMember members "isCorrect".data with
     | some (.bool _) => true
     | _ => false) &&
    (match lookupMember members "feedback".data with
     | some (.str _) => true
     | _ => false) &&
    (match lookupMember members "tip".data with
     | some (.str _) => true
     | _ => false)
  | _ => false

/-- Number of text-generation requests in a call list. -/
def countGenerate (calls : List ExtCall) : Nat :=
  (calls.filter (fun c => match c with
    | .generateContent _ => true
    | _ => false)).length

/-! ## Helper lemmas -/

/-- Iterating `handleNextItem` advances the index modulo the list length. -/
theorem handleNextItem_iterate (n : Nat) (s : AppState) :
    (handleNextItem^[n + 1] s).currentItemIndex =
      (s.currentItemIndex + (n + 1)) % PRACTICE_ITEMS.length := by
  induction n generalizing s with
  | zero => simp [handleNextItem]
  | succ k ih =>
    rw [Function.iterate_succ_apply, ih (handleNextItem s)]
    simp only [handleNextItem, PRACTICE_ITEMS, List.length_cons, List.length_nil]
    omega

/-- At most one `generateContent` request per `analyzePronunciation` run. -/
theorem countGenerate_analyze (hasAi : Bool) (w i t : Str) (g : Option Str)
    (s : AppState) :
    countGenerate (analyzePronunciation hasAi w i t g s).2 ≤ 1 := by
  cases hasAi with
  | false => simp [analyzePronunciation, countGenerate]
  | true =>
    cases g with
    | none => simp [analyzePronunciation, countGenerate]
    | some text =>
      cases h : jsonParse (stripFence text) with
      | none => simp [analyzePronunciation, h, countGenerate]
      | some v => simp [analyzePronunciation, h, countGenerate]

/-- `analyzePronunciation` reaches `result` only with a stored feedback. -/
theorem analyze_result_has_feedback (hasAi : Bool) (w i t : Str) (g : Option Str)
    (s : AppState)
    (h : (analyzePronunciation hasAi w i t g s).1.status = .result) :
    ((analyzePronunciation hasAi w i t g s).1.feedback).isSome = true := by
  cases hasAi with
  | false => simp [analyzePronunciation] at h
  | true =>
    cases g with
    | none => simp [analyzePronunciation] at h
    | some text =>
      cases hp : jsonParse (stripFence text) with
      | none => simp [analyzePronunciation, hp] at h
      | some v => simp [analyzePronunciation, hp]

/-- `handleRecord` reaches `result` only with a stored feedback. -/
theorem handleRecord_result_has_feedback (env : RecordEnv) (word ipa : Str)
    (s : AppState)
    (h : (handleRecord env word ipa s).1.status = .result) :
    ((handleRecord env word ipa s).1.feedback).isSome = true := by
  cases hmd : env.mediaDevicesSupported with
  | false => simp [handleRecord, hmd] at h
  | true =>
    cases hsr : env.speechRecognitionSupported with
    | false => simp [handleRecord, hmd, hsr] at h
    | true =>
      cases hgm : env.getUserMediaResult with
      | error e => simp [handleRecord, hmd, hsr, hgm] at h
      | ok u =>
        cases hrr : env.recognitionResult with
        | error r => simp [handleRecord, hmd, hsr, hgm, hrr] at h
        | ok transcript =>
          by_cases ht : jsTrim transcript = []
          · simp [handleRecord, hmd, hsr, hgm, hrr, ht] at h
          · have hs : (handleRecord env word ipa s).1 =
                (analyzePronunciation env.hasAi word ipa transcript env.genResult
                  { s with
                    activeWord := some word, status := .recording,
                    error := [], feedback := none }).1 := by
              simp [handleRecord, hmd, hsr, hgm, hrr, ht]
            rw [hs] at h ⊢
            exact analyze_result_has_feedback _ _ _ _ _ _ h

/-! ## Claims -/

/-- C3: the practice-item list is a fixed constant of the program (it is
not part of the mutable state, and no operation takes it as input), and
`handleNextItem` cycles the index: from any in-bounds index `i` it moves
to `(i + 1) % length`, stays in bounds, and after `length` presses the
index returns to its starting value. -/
theorem C3_practice_items_cycled (s : AppState)
    (h : s.currentItemIndex < PRACTICE_ITEMS.length) :
    PRACTICE_ITEMS.length = 5 ∧
    (handleNextItem s).currentItemIndex =
      (s.currentItemIndex + 1) % PRACTICE_ITEMS.length ∧
    (handleNextItem s).currentItemIndex < PRACTICE_ITEMS.length ∧
    (handleNextItem^[PRACTICE_ITEMS.length] s).currentItemIndex =
      s.currentItemIndex := by
  refine ⟨rfl, rfl, ?_, ?_⟩
  · exact Nat.mod_lt _ (by decide)
  · have h5 : PRACTICE_ITEMS.length = 5 := rfl
    rw [h5] at h ⊢
    have := handleNextItem_iterate 4 s
    rw [h5] at this
    rw [show (5 : Nat) = 4 + 1 from rfl, this]
    omega

/-- Witness for C3 at the initial state. -/
theorem C3_practice_items_cycled_witness :
    initialState.currentItemIndex < PRACTICE_ITEMS.length ∧
    (PRACTICE_ITEMS.length = 5 ∧
     (handleNextItem initialState).currentItemIndex =
       (initialState.currentItemIndex + 1) % PRACTICE_ITEMS.length ∧
     (handleNextItem initialState).currentItemIndex < PRACTICE_ITEMS.length ∧
     (handleNextItem^[PRACTICE_ITEMS.length] initialState).currentItemIndex =
       initialState.currentItemIndex) :=
  ⟨by decide, C3_practice_items_cycled initialState (by decide)⟩

/-- C5: `handleNextItem` discards the previous attempt: afterwards the
feedback is `none`, the status `idle`, the error empty and the active
word `none`; and a single recording attempt issues at most one
text-generation request, so at most one feedback result is produced per
attempt. -/
theorem C5_next_item_discards_feedback :
    (∀ s : AppState,
      (handleNextItem s).feedback = none ∧
      (handleNextItem s).status = .idle ∧
      (handleNextItem s).error = [] ∧
      (handleNextItem s).activeWord = none) ∧
    ∀ (env : RecordEnv) (word ipa : Str) (s : AppState),
      countGenerate (handleRecord env word ipa s).2 ≤ 1 := by
  refine ⟨fun s => ⟨rfl, rfl, rfl, rfl⟩, fun env word ipa s => ?_⟩
  cases hmd : env.mediaDevicesSupported with
  | false => simp [handleRecord, hmd, countGenerate]
  | true =>
    cases hsr : env.speechRecognitionSupported with
    | false => simp [handleRecord, hmd, hsr, countGenerate]
    | true =>
      cases hgm : env.getUserMediaResult with
      | error e => simp [handleRecord, hmd, hsr, hgm, countGenerate]
      | ok u =>
        cases hrr : env.recognitionResult with
        | error r => simp [handleRecord, hmd, hsr, hgm, hrr, countGenerate]
        | ok transcript =>
          by_cases ht : jsTrim transcript = []
          · simp [handleRecord, hmd, hsr, hgm, hrr, ht, countGenerate]
          · have hc : (handleRecord env word ipa s).2 =
                .getUserMedia :: .startRecognition ::
                  (analyzePronunciation env.hasAi word ipa transcript env.genResult
                    { s with
                      activeWord := some word, status := .recording,
                      error := [], feedback := none }).2 := by
              simp [handleRecord, hmd, hsr, hgm, hrr, ht]
            rw [hc]
            have := countGenerate_analyze env.hasAi word ipa transcript env.genResult
              { s with
                activeWord := some word, status := .recording,
                error := [], feedback := none }
            simpa [countGenerate] using this

/-- C6: the prompt built by `analyzePronunciation` contains the target
word, the target IPA and the transcript as substrings; the request is
configured with responseMimeType "application/json"; and whenever the
client exists the run issues exactly the `generateContent` request with
that prompt. -/
theorem C6_prompt_and_config :
    analyzeModelRequest.generationConfig.responseMimeType =
      "application/json".data ∧
    ∀ w i t : Str,
      (∃ p q, buildPrompt w i t = p ++ w ++ q) ∧
      (∃ p q, buildPrompt w i t = p ++ i ++ q) ∧
      (∃ p q, buildPrompt w i t = p ++ t ++ q) ∧
      ∀ (g : Option Str) (s : AppState),
        (analyzePronunciation true w i t g s).2 =
          [.generateContent (buildPrompt w i t)] := by
  refine ⟨rfl, fun w i t => ⟨?_, ?_, ?_, fun g s => ?_⟩⟩
  · exact ⟨promptPartA,
      promptPartB ++ i ++ promptPartC ++ t ++ promptPartD,
      by simp [buildPrompt]⟩
  · exact ⟨promptPartA ++ w ++ promptPartB,
      promptPartC ++ t ++ promptPartD,
      by simp [buildPrompt]⟩
  · exact ⟨promptPartA ++ w ++ promptPartB ++ i ++ promptPartC,
      promptPartD,
      by simp [buildPrompt]⟩
  · cases g with
    | none => simp [analyzePronunciation]
    | some text =>
      cases hp : jsonParse (stripFence text) with
      | none => simp [analyzePronunciation, hp]
      | some v => simp [analyzePronunciation, hp]

/-- C4: the user-facing error string of `handleRecord` is a fixed lookup
on the caught value: `NotAllowedError`/`PermissionDeniedError` map to the
permission message, `NotFoundError` to the no-microphone message,
`NotReadableError` to the in-use message, any other Error whose message
contains "api key" (case-insensitively) to the API-key message, any other
Error to a message embedding `err.message`, a caught string is shown
verbatim, and anything else maps to the unknown-error message; and a
caught `getUserMedia` rejection or a recognition rejection indeed lands
in `state.error` through this table. -/
theorem C4_error_message_table :
    (∀ msg : Str,
      errorMessageFor (.error "NotAllowedError".data msg) = micDeniedMsg ∧
      errorMessageFor (.error "PermissionDeniedError".data msg) = micDeniedMsg ∧
      errorMessageFor (.error "NotFoundError".data msg) = noMicFoundMsg ∧
      errorMessageFor (.error "NotReadableError".data msg) = micInUseMsg) ∧
    (∀ name msg : Str,
      name ≠ "NotAllowedError".data → name ≠ "PermissionDeniedError".data →
      name ≠ "NotFoundError".data → name ≠ "NotReadableError".data →
      errorMessageFor (.error name msg) =
        (if jsIncludes "api key".data (jsToLowerCase msg) then apiKeyFailedMsg
         else "An error occurred: ".data ++ msg)) ∧
    (∀ s : Str, errorMessageFor (.str s) = s) ∧
    errorMessageFor .other = unknownErrorMsg ∧
    (∀ (env : RecordEnv) (word ipa : Str) (s : AppState) (err : JsValue),
      env.mediaDevicesSupported = true →
      env.speechRecognitionSupported = true →
      env.getUserMediaResult = .error err →
      (handleRecord env word ipa s).1.error = errorMessageFor err ∧
      (handleRecord env word ipa s).1.status = .idle) ∧
    (∀ (env : RecordEnv) (word ipa : Str) (s : AppState) (r : Str),
      env.mediaDevicesSupported = true →
      env.speechRecognitionSupported = true →
      env.getUserMediaResult = .ok () →
      env.recognitionResult = .error r →
      (handleRecord env word ipa s).1.error = r ∧
      (handleRecord env word ipa s).1.status = .idle) := by
  refine ⟨fun msg => ⟨rfl, rfl, rfl, rfl⟩,
    fun name msg h1 h2 h3 h4 => ?_,
    fun s => rfl, rfl,
    fun env word ipa s err hmd hsr hgm => ?_,
    fun env word ipa s r hmd hsr hgm hrr => ?_⟩
  · simp [errorMessageFor, h1, h2, h3, h4]
  · constructor <;> simp [handleRecord, hmd, hsr, hgm]
  · constructor <;> simp [handleRecord, errorMessageFor, hmd, hsr, hgm, hrr]

/-- Witness for C4: a generic Error falls through to the embedding
message, and a denied microphone permission lands in `state.error`. -/
theorem C4_error_message_table_witness :
    errorMessageFor (.error "TypeError".data "boom".data) =
      "An error occurred: boom".data ∧
    (handleRecord
      { mediaDevicesSupported := true, speechRecognitionSupported := true,
        getUserMediaResult := .error (.error "NotAllowedError".data []),
        recognitionResult := .ok "x".data, hasAi := true, genResult := none }
      "sea".data "/siː/".data initialState).1.error =
      errorMessageFor (.error "NotAllowedError".data []) := by
  constructor
  · have h := C4_error_message_table.2.1 "TypeError".data "boom".data
      (by decide) (by decide) (by decide) (by decide)
    rw [h]; rfl
  · exact (C4_error_message_table.2.2.2.2.1 _ "sea".data "/siː/".data
      initialState (.error "NotAllowedError".data []) rfl rfl rfl).1

/-- C8: when the analysis step fails — the generation call throws, or its
response text does not parse as JSON after fence stripping — the run ends
with `feedback = none`, the failure message, status back to `idle`, and
the rest of the state (item index, active word) unchanged; in particular
it never reaches `result`. -/
theorem C8_analysis_error_state (w i t : Str) (g : Option Str) (s : AppState)
    (h : g = none ∨ ∃ txt, g = some txt ∧ jsonParse (stripFence txt) = none) :
    (analyzePronunciation true w i t g s).1.feedback = none ∧
    (analyzePronunciation true w i t g s).1.error = feedbackFailedMsg ∧
    (analyzePronunciation true w i t g s).1.status = .idle ∧
    (analyzePronunciation true w i t g s).1.currentItemIndex =
      s.currentItemIndex ∧
    (analyzePronunciation true w i t g s).1.activeWord = s.activeWord := by
  rcases h with rfl | ⟨txt, rfl, hp⟩
  · simp [analyzePronunciation]
  · simp [analyzePronunciation, hp]

/-- Witness for C8 at an unparsable response text. -/
theorem C8_analysis_error_state_witness :
    (analyzePronunciation true "sea".data "/siː/".data "see".data
      (some "not json".data) initialState).1.feedback = none ∧
    (analyzePronunciation true "sea".data "/siː/".data "see".data
      (some "not json".data) initialState).1.error = feedbackFailedMsg ∧
    (analyzePronunciation true "sea".data "/siː/".data "see".data
      (some "not json".data) initialState).1.status = .idle ∧
    (analyzePronunciation true "sea".data "/siː/".data "see".data
      (some "not json".data) initialState).1.currentItemIndex =
      initialState.currentItemIndex ∧
    (analyzePronunciation true "sea".data "/siː/".data "see".data
      (some "not json".data) initialState).1.activeWord =
      initialState.activeWord :=
  C8_analysis_error_state "sea".data "/siː/".data "see".data
    (some "not json".data) initialState
    (Or.inr ⟨"not json".data, rfl, rfl⟩)

/-- C9: a recording attempt whose recognized transcript trims to the
empty string stops before analysis: the external calls are exactly the
microphone request and the recognition start (no text-generation
request), the could-not-hear message is set and the status returns to
`idle`. -/
theorem C9_blank_transcript_skips_analysis (env : RecordEnv) (word ipa t : Str)
    (s : AppState)
    (hmd : env.mediaDevicesSupported = true)
    (hsr : env.speechRecognitionSupported = true)
    (hgm : env.getUserMediaResult = .ok ())
    (hrr : env.recognitionResult = .ok t)
    (ht : jsTrim t = []) :
    (handleRecord env word ipa s).1.error = couldntHearMsg ∧
    (handleRecord env word ipa s).1.status = .idle ∧
    (handleRecord env word ipa s).2 = [.getUserMedia, .startRecognition] := by
  refine ⟨?_, ?_, ?_⟩ <;> simp [handleRecord, hmd, hsr, hgm, hrr, ht]

/-- Witness for C9 at a whitespace-only transcript. -/
theorem C9_blank_transcript_skips_analysis_witness :
    (handleRecord
      { mediaDevicesSupported := true, speechRecognitionSupported := true,
        getUserMediaResult := .ok (), recognitionResult := .ok "  ".data,
        hasAi := true, genResult := some "\x7b\x7d".data }
      "sea".data "/siː/".data initialState).1.error = couldntHearMsg ∧
    (handleRecord
      { mediaDevicesSupported := true, speechRecognitionSupported := true,
        getUserMediaResult := .ok (), recognitionResult := .ok "  ".data,
        hasAi := true, genResult := some "\x7b\x7d".data }
      "sea".data "/siː/".data initialState).1.status = .idle ∧
    (handleRecord
      { mediaDevicesSupported := true, speechRecognitionSupported := true,
        getUserMediaResult := .ok (), recognitionResult := .ok "  ".data,
        hasAi := true, genResult := some "\x7b\x7d".data }
      "sea".data "/siː/".data initialState).2 =
      [.getUserMedia, .startRecognition] :=
  C9_blank_transcript_skips_analysis _ "sea".data "/siː/".data "  ".data
    initialState rfl rfl rfl rfl rfl

/-- C7: the session status space is exactly
{idle, recording, analyzing, result}; both state-changing operations
reach `result` only together with a stored (non-null) feedback value;
and `handleNextItem` goes to `idle`. -/
theorem C7_view_state_invariant :
    (∀ st : Status,
      st = .idle ∨ st = .recording ∨ st = .analyzing ∨ st = .result) ∧
    (∀ (hasAi : Bool) (w i t : Str) (g : Option Str) (s : AppState),
      (analyzePronunciation hasAi w i t g s).1.status = .result →
      ((analyzePronunciation hasAi w i t g s).1.feedback).isSome = true) ∧
    (∀ (env : RecordEnv) (word ipa : Str) (s : AppState),
      (handleRecord env word ipa s).1.status = .result →
      ((handleRecord env word ipa s).1.feedback).isSome = true) ∧
    (∀ s : AppState, (handleNextItem s).status = .idle) := by
  refine ⟨fun st => ?_, analyze_result_has_feedback,
    handleRecord_result_has_feedback, fun s => rfl⟩
  cases st <;> simp

/-- Witness for C7: a run that reaches `result` has feedback stored. -/
theorem C7_view_state_invariant_witness :
    ((analyzePronunciation true "sea".data "/siː/".data "see".data
      (some "[1]".data) initialState).1.feedback).isSome = true :=
  C7_view_state_invariant.2.1 true "sea".data "/siː/".data "see".data
    (some "[1]".data) initialState rfl

/-- Settled recognition promises settle from the first settling event:
either the first result event (resolving with `results[0][0].transcript`)
or the first error event (rejecting with the interpolated reason). -/
theorem settleEvents_spec (events : List RecEvent) (r : Except Str Str)
    (h : settleEvents events = some r) :
    (∃ pre rs t rest, events = pre ++ .result rs :: rest ∧
      settleEvents pre = none ∧ firstTranscript rs = some t ∧ r = .ok t) ∨
    (∃ pre code rest, events = pre ++ .error code :: rest ∧
      settleEvents pre = none ∧ r = .error (recErrorHead ++ code)) := by
  induction events with
  | nil => simp [settleEvents] at h
  | cons e rest ih =>
    cases e with
    | result rs =>
      cases hf : firstTranscript rs with
      | some t =>
        have hr : Except.ok t = r := by
          have h2 : settleEvents (RecEvent.result rs :: rest) =
              some (.ok t) := by
            simp [settleEvents, hf]
          exact Option.some.inj (h2.symm.trans h)
        exact Or.inl ⟨[], rs, t, rest, rfl, rfl, hf, hr.symm⟩
      | none =>
        have h' : settleEvents rest = some r := by
          simpa [settleEvents, hf] using h
        rcases ih h' with ⟨pre, rs', t, rest', he, hpre, hft, hr⟩ |
          ⟨pre, code, rest', he, hpre, hr⟩
        · exact Or.inl ⟨.result rs :: pre, rs', t, rest', by rw [he]; rfl,
            by simp [settleEvents, hf, hpre], hft, hr⟩
        · exact Or.inr ⟨.result rs :: pre, code, rest', by rw [he]; rfl,
            by simp [settleEvents, hf, hpre], hr⟩
    | error code =>
      have hr : Except.error (recErrorHead ++ code) = r := by
        have h2 : settleEvents (RecEvent.error code :: rest) =
            some (.error (recErrorHead ++ code)) := rfl
        exact Option.some.inj (h2.symm.trans h)
      exact Or.inr ⟨[], code, rest, rfl, rfl, hr.symm⟩
    | ended =>
      have h' : settleEvents rest = some r := by
        simpa [settleEvents] using h
      rcases ih h' with ⟨pre, rs', t, rest', he, hpre, hft, hr⟩ |
        ⟨pre, code, rest', he, hpre, hr⟩
      · exact Or.inl ⟨.ended :: pre, rs', t, rest', by rw [he]; rfl,
          by simp [settleEvents, hpre], hft, hr⟩
      · exact Or.inr ⟨.ended :: pre, code, rest', by rw [he]; rfl,
          by simp [settleEvents, hpre], hr⟩

/-- C2: whenever the single-shot `recognizeSpeech` promise settles it
either rejects with the unsupported-browser message, resolves with
`results[0][0].transcript` of the first settling result event, or
rejects with a string embedding the recognition error code of the first
settling error event; and `handleRecord` requests microphone access
before it does anything else external (in particular before starting
recognition). -/
theorem C2_recognize_speech_single_shot (supported : Bool)
    (events : List RecEvent) (r : Except Str Str)
    (h : recognizeSpeech supported events = some r) :
    ((supported = false ∧ r = .error recNotSupportedMsg) ∨
     (∃ pre rs t rest, events = pre ++ .result rs :: rest ∧
       settleEvents pre = none ∧ firstTranscript rs = some t ∧ r = .ok t) ∨
     (∃ pre code rest, events = pre ++ .error code :: rest ∧
       settleEvents pre = none ∧ r = .error (recErrorHead ++ code))) ∧
    ∀ (env : RecordEnv) (word ipa : Str) (s : AppState),
      (handleRecord env word ipa s).2 = [] ∨
      ∃ calls, (handleRecord env word ipa s).2 = .getUserMedia :: calls := by
  constructor
  · cases supported with
    | false =>
      have h2 : recognizeSpeech false events =
          some (.error recNotSupportedMsg) := rfl
      exact Or.inl ⟨rfl, (Option.some.inj (h2.symm.trans h)).symm⟩
    | true =>
      have h' : settleEvents events = some r := by
        simpa [recognizeSpeech] using h
      exact Or.inr (settleEvents_spec events r h')
  · intro env word ipa s
    cases hmd : env.mediaDevicesSupported with
    | false => exact Or.inl (by simp [handleRecord, hmd])
    | true =>
      cases hsr : env.speechRecognitionSupported with
      | false => exact Or.inl (by simp [handleRecord, hmd, hsr])
      | true =>
        refine Or.inr ?_
        cases hgm : env.getUserMediaResult with
        | error e => exact ⟨[], by simp [handleRecord, hmd, hsr, hgm]⟩
        | ok u =>
          cases hrr : env.recognitionResult with
          | error rr =>
            exact ⟨[.startRecognition],
              by simp [handleRecord, hmd, hsr, hgm, hrr]⟩
          | ok transcript =>
            by_cases ht : jsTrim transcript = []
            · exact ⟨[.startRecognition],
                by simp [handleRecord, hmd, hsr, hgm, hrr, ht]⟩
            · exact ⟨.startRecognition ::
                (analyzePronunciation env.hasAi word ipa transcript
                  env.genResult
                  { s with
                    activeWord := some word, status := .recording,
                    error := [], feedback := none }).2,
                by simp [handleRecord, hmd, hsr, hgm, hrr, ht]⟩

/-- Witness for C2: a session whose events are an end marker followed by
a result event resolves with that result's first transcript. -/
theorem C2_recognize_speech_single_shot_witness :
    (true = false ∧
      (Except.ok "she".data : Except Str Str) = .error recNotSupportedMsg) ∨
    (∃ pre rs t rest,
      [RecEvent.ended, RecEvent.result [["she".data]]] =
        pre ++ .result rs :: rest ∧
      settleEvents pre = none ∧ firstTranscript rs = some t ∧
      (Except.ok "she".data : Except Str Str) = .ok t) ∨
    (∃ pre code rest,
      [RecEvent.ended, RecEvent.result [["she".data]]] =
        pre ++ .error code :: rest ∧
      settleEvents pre = none ∧
      (Except.ok "she".data : Except Str Str) =
        .error (recErrorHead ++ code)) :=
  (C2_recognize_speech_single_shot true
    [RecEvent.ended, RecEvent.result [["she".data]]]
    (Except.ok "she".data) rfl).1

/-- C10 as stated is false: a POST request whose body carries an empty
`audio` field has the audio field, yet the handler responds 400 and
performs no `recognize` call (JavaScript truthiness rejects the empty
string), where the claim requires a single transcription-service call. -/
theorem C10_counterexample :
    (transcribeHandler { method := "POST".data, audio := some [] }
      (some [["hi".data]])).1 = .send 400 badRequestMsg ∧
    (transcribeHandler { method := "POST".data, audio := some [] }
      (some [["hi".data]])).2 = 0 :=
  ⟨rfl, rfl⟩

/-- C10 (amended): a non-POST method gets 405 with no service call; a
missing or empty `audio` field gets 400 with no service call; otherwise
exactly one `recognize` call is made, and the handler responds 200 with
the first alternatives' transcripts joined by newlines when the call
returns and every result has an alternative, and 500 when the call
throws or some result has no alternatives. -/
theorem C10_amended_backend_handler (req : BackendReq)
    (rec : Option (List (List Str))) :
    (req.method ≠ "POST".data →
      transcribeHandler req rec = (.send 405 methodNotAllowedMsg, 0)) ∧
    (req.method = "POST".data → (req.audio = none ∨ req.audio = some []) →
      transcribeHandler req rec = (.send 400 badRequestMsg, 0)) ∧
    (∀ a : Str, req.method = "POST".data → req.audio = some a → a ≠ [] →
      (transcribeHandler req rec).2 = 1 ∧
      (∀ results ts, rec = some results →
        firstAlternativeTranscripts results = some ts →
        (transcribeHandler req rec).1 = .json 200 (joinNl ts)) ∧
      (rec = none →
        (transcribeHandler req rec).1 = .send 500 internalServerErrorMsg) ∧
      (∀ results, rec = some results →
        firstAlternativeTranscripts results = none →
        (transcribeHandler req rec).1 = .send 500 internalServerErrorMsg)) := by
  refine ⟨fun hm => ?_, fun hm ha => ?_, fun a hm ha hne => ?_⟩
  · simp [transcribeHandler, hm]
  · rcases ha with ha | ha <;> simp [transcribeHandler, hm, ha]
  · refine ⟨?_, fun results ts hr hf => ?_, fun hr => ?_,
      fun results hr hf => ?_⟩
    · cases rec with
      | none => simp [transcribeHandler, hm, ha, hne]
      | some results =>
        cases hf : firstAlternativeTranscripts results with
        | none => simp [transcribeHandler, hm, ha, hne, hf]
        | some ts => simp [transcribeHandler, hm, ha, hne, hf]
    · subst hr; simp [transcribeHandler, hm, ha, hne, hf]
    · subst hr; simp [transcribeHandler, hm, ha, hne]
    · subst hr; simp [transcribeHandler, hm, ha, hne, hf]

/-- Witness for C10 (amended): a well-formed POST with two results. -/
theorem C10_amended_backend_handler_witness :
    (transcribeHandler { method := "POST".data, audio := some "x".data }
      (some [["hi".data], ["yo".data]])).2 = 1 ∧
    (transcribeHandler { method := "POST".data, audio := some "x".data }
      (some [["hi".data], ["yo".data]])).1 = .json 200 "hi\nyo".data := by
  have h := (C10_amended_backend_handler
    { method := "POST".data, audio := some "x".data }
    (some [["hi".data], ["yo".data]])).2.2 "x".data rfl rfl (by decide)
  refine ⟨h.1, ?_⟩
  have h2 := h.2.1 [["hi".data], ["yo".data]] ["hi".data, "yo".data] rfl rfl
  rw [h2]; rfl

/-- A list is a `isPrefixOf` of itself followed by anything. -/
theorem isPrefixOf_append_self (l t : Str) : l.isPrefixOf (l ++ t) = true := by
  rw [List.isPrefixOf_iff_prefix]
  exact List.prefix_append l t

/-- A list is a `isSuffixOf` of anything followed by itself. -/
theorem isSuffixOf_append_self (l t : Str) : l.isSuffixOf (t ++ l) = true := by
  rw [List.isSuffixOf_iff_suffix]
  exact List.suffix_append t l

/-- Appending the backtick fence cannot create a `json` tag prefix,
since no backtick occurs in `json`. -/
theorem jsonTag_not_prefixOf_append_fence :
    ∀ m : Str, jsonTag.isPrefixOf m = false →
      jsonTag.isPrefixOf (m ++ fence) = false
  | [], _ => rfl
  | [a], _ => by
    show ((('j' : Char) == a) && List.isPrefixOf ['s', 'o', 'n'] fence) = false
    rw [show List.isPrefixOf ['s', 'o', 'n'] fence = false from rfl,
      Bool.and_false]
  | [a, b], _ => by
    show ((('j' : Char) == a) && ((('s' : Char) == b) &&
      List.isPrefixOf ['o', 'n'] fence)) = false
    rw [show List.isPrefixOf ['o', 'n'] fence = false from rfl,
      Bool.and_false, Bool.and_false]
  | [a, b, c], _ => by
    show ((('j' : Char) == a) && ((('s' : Char) == b) &&
      ((('o' : Char) == c) && List.isPrefixOf ['n'] fence))) = false
    rw [show List.isPrefixOf ['n'] fence = false from rfl,
      Bool.and_false, Bool.and_false, Bool.and_false]
  | a :: b :: c :: d :: rest, h => by
    simpa [List.isPrefixOf] using h

/-- `stripFence` on a string wrapped in a ```json fence with nonblank
content returns the trimmed content. -/
theorem stripFence_json_wrap (m : Str) (h : jsTrim m ≠ []) :
    stripFence (fence ++ jsonTag ++ m ++ fence) = jsTrim m := by
  have e1 : fence ++ jsonTag ++ m ++ fence =
      fence ++ (jsonTag ++ (m ++ fence)) := by simp
  have e2 : (fence ++ (jsonTag ++ (m ++ fence))).drop 3 =
      jsonTag ++ (m ++ fence) := List.drop_left fence _
  have e3 : (jsonTag ++ (m ++ fence)).drop 4 = m ++ fence :=
    List.drop_left jsonTag _
  have e4 : (m ++ fence).take (m.length + fence.length - 3) = m := by
    have hl : m.length + fence.length - 3 = m.length := by simp [fence]
    rw [hl]
    exact List.take_left m fence
  rw [e1]
  unfold stripFence
  simp [isPrefixOf_append_self, isSuffixOf_append_self, e2, e3, e4, h]

/-- `stripFence` on a string wrapped in a plain ``` fence with nonblank
content not starting with the `json` tag returns the trimmed content. -/
theorem stripFence_plain_wrap (m : Str) (h : jsTrim m ≠ [])
    (hj : jsonTag.isPrefixOf m = false) :
    stripFence (fence ++ m ++ fence) = jsTrim m := by
  have e1 : fence ++ m ++ fence = fence ++ (m ++ fence) := by simp
  have e2 : (fence ++ (m ++ fence)).drop 3 = m ++ fence :=
    List.drop_left fence _
  have e4 : (m ++ fence).take (m.length + fence.length - 3) = m := by
    have hl : m.length + fence.length - 3 = m.length := by simp [fence]
    rw [hl]
    exact List.take_left m fence
  have hj2 := jsonTag_not_prefixOf_append_fence m hj
  rw [e1]
  unfold stripFence
  simp [isPrefixOf_append_self, isSuffixOf_append_self, e2, e4, hj2, h]

/-- C1 as stated is false: the response text is parsed as JSON after
fence handling, but the parsed value is stored as the feedback result
with no runtime validation of its fields — the `Feedback` ascription in
`const feedbackResult: Feedback = JSON.parse(jsonStr)` is compile-time
only.  At the response text "{}" an empty JSON object is parsed and
stored as feedback with status `result`, although it has none of the
three claimed fields. -/
theorem C1_counterexample :
    (analyzePronunciation true "sea".data "/siː/".data "see".data
      (some "\x7b\x7d".data) initialState).1.status = .result ∧
    (analyzePronunciation true "sea".data "/siː/".data "see".data
      (some "\x7b\x7d".data) initialState).1.feedback =
      some (Json.obj []) ∧
    isValidFeedback (Json.obj []) = false :=
  ⟨rfl, rfl, rfl⟩

/-- C1 (amended): `analyzePronunciation` strips a surrounding markdown
code fence (``` or ```json; the wrapper is kept when the enclosed
content is blank) and parses the remainder as JSON; any successfully
parsed JSON value is stored as the feedback result, with no runtime
validation of its fields, and the status becomes `result`; a parse
failure stores no feedback and sets the failure message instead. -/
theorem C1_amended_fence_parse_store (w i t txt : Str) (s : AppState) :
    (∀ v, jsonParse (stripFence txt) = some v →
      (analyzePronunciation true w i t (some txt) s).1.feedback = some v ∧
      (analyzePronunciation true w i t (some txt) s).1.status = .result) ∧
    (jsonParse (stripFence txt) = none →
      (analyzePronunciation true w i t (some txt) s).1.feedback = none ∧
      (analyzePronunciation true w i t (some txt) s).1.status = .idle ∧
      (analyzePronunciation true w i t (some txt) s).1.error =
        feedbackFailedMsg) ∧
    (∀ m : Str, jsTrim m ≠ [] →
      stripFence (fence ++ jsonTag ++ m ++ fence) = jsTrim m) ∧
    (∀ m : Str, jsTrim m ≠ [] → jsonTag.isPrefixOf m = false →
      stripFence (fence ++ m ++ fence) = jsTrim m) := by
  refine ⟨fun v hv => ?_, fun hn => ?_, stripFence_json_wrap,
    stripFence_plain_wrap⟩
  · constructor <;> simp [analyzePronunciation, hv]
  · refine ⟨?_, ?_, ?_⟩ <;> simp [analyzePronunciation, hn]

/-- Witness for C1 (amended): a ```json-fenced response is stripped,
parsed, and stored verbatim as the feedback result. -/
theorem C1_amended_fence_parse_store_witness :
    (analyzePronunciation true "sea".data "/siː/".data "see".data
      (some "```json\n\x7b\"isCorrect\": true, \"feedback\": \"ok\", \"tip\": \"t\"\x7d\n```".data)
      initialState).1.feedback =
      some (Json.obj [("isCorrect".data, Json.bool true),
        ("feedback".data, Json.str "ok".data),
        ("tip".data, Json.str "t".data)]) ∧
    (analyzePronunciation true "sea".data "/siː/".data "see".data
      (some "```json\n\x7b\"isCorrect\": true, \"feedback\": \"ok\", \"tip\": \"t\"\x7d\n```".data)
      initialState).1.status = .result :=
  (C1_amended_fence_parse_store "sea".data "/siː/".data "see".data _
    initialState).1 _ rfl

end SSH

